import Mathlib

/-!
Shallow embedding of the microvm-operator reconciliation core.

The definitions below are translated from the Go sources:
  * `controllers/microvm_controller.go`            (Unit / Microvm controller)
  * `controllers/microvmreplicaset_controller.go`  (ReplicaSet controller)
  * `controllers/microvmdeployment_controller.go`  (Deployment controller)
  * `internal/scope/mvm.go` and sibling scope files (scope helpers)

External collaborators (the Kubernetes API client and the flintlock
provisioner service) are modelled as environment records whose fields give
the outcome of each call the reconcile body can make; the reconcile bodies
are pure functions from an environment and the object state to the
resulting object state, controller result, error and the calls issued.
-/

/-- A flintlock host, identified by its endpoint address
(`microvm.Host` from controller-pkg). -/
structure Host where
  endpoint : String
deriving DecidableEq

/-- The remote provisioner's microvm lifecycle state
(`flintlocktypes.MicroVMStatus_MicroVMState`).  Any value other than the
four named constants is carried as a raw code (`other`), matching the Go
enum being an open int32. -/
inductive MicroVMState where
  | created
  | pending
  | deleting
  | failed
  | other (code : Nat)
deriving DecidableEq

/-- The Unit's recorded VM state (`infrav1.VMState*` constants). -/
inductive VMState where
  | pending
  | running
  | failed
  | unknown
deriving DecidableEq

/-- Condition reasons used by the three controllers
(`infrav1.Microvm*Reason`, `infrav1.MicrovmReplicaSet*Reason`,
`infrav1.MicrovmDeployment*Reason`). -/
inductive Reason where
  | microvmDeleting
  | microvmDeleteFailed
  | microvmPending
  | microvmProvisionFailed
  | microvmUnknownState
  | rsDeleting
  | rsDeleteFailed
  | rsIncomplete
  | rsUpdating
  | rsProvisionFailed
  | depDeleting
  | depDeleteFailed
  | depIncomplete
  | depUpdating
  | depUpdateFailed
  | depProvisionFailed
deriving DecidableEq

/-- `spec` of a Microvm object: the target host, the provider id
(empty string in Go means unset, modelled as `Option`), and the remaining
provisioning parameters (vCPU, memory, image, ...) which the reconcilers
pass through unexamined, collapsed to an opaque `payload`. -/
structure MicrovmSpecT where
  host : Host
  providerID : Option String
  payload : Nat
deriving DecidableEq

/-- `status` of a Microvm object: readiness, recorded VM state, and the
reason of the ready condition when it was last marked false
(`conditions.MarkTrue` clears it). -/
structure MicrovmStatusT where
  ready : Bool
  vmState : Option VMState
  readyReason : Option Reason
deriving DecidableEq

/-- A Microvm (Unit) object as stored.  `ownerRS` is the controller
owner reference (the owning ReplicaSet's identity), `deletionTimestamp`
records whether a deletion timestamp is set, and `finalizer` whether the
`MvmFinalizer` is present. -/
structure Microvm where
  ns : String
  ownerRS : Option Nat
  deletionTimestamp : Bool
  finalizer : Bool
  spec : MicrovmSpecT
  status : MicrovmStatusT
deriving DecidableEq

/-- `MicrovmScope.SetReady`: mark the ready condition true. -/
def mvmSetReady (m : Microvm) : Microvm :=
  { m with status := { m.status with ready := true, readyReason := none } }

/-- `MicrovmScope.SetNotReady`: mark the ready condition false with a reason. -/
def mvmSetNotReady (m : Microvm) (r : Reason) : Microvm :=
  { m with status := { m.status with ready := false, readyReason := some r } }

/-- Result of one reconcile invocation (`ctrl.Result`); `requeueAfter = 0`
is the zero result (converged, no requeue). -/
structure CtrlResult where
  requeueAfter : Nat
deriving DecidableEq

/-- `requeuePeriod = 30 * time.Second`, in seconds. -/
def requeuePeriod : Nat := 30

/-- The errors a reconcile body can return, one constructor per distinct
error source in the Go code. -/
inductive RErr where
  | clientFactory
  | clientCreate
  | getFailed
  | patchFailed
  | createFailed
  | deleteFailed
  | microvmFailed
  | microvmUnknownState
  | listFailed
  | noFreeHost
deriving DecidableEq

/-- Outcome of `mvmSvc.Get`: the remote microvm with its uid and state, a
"not found" answer (nil microvm), or a transport failure. -/
inductive GetOutcome where
  | found (uid : String) (state : MicroVMState)
  | notFound
  | failure
deriving DecidableEq

/-- Environment of one Unit reconcile: outcomes of every external call the
body may make.  `factoryConfigured` is `MvmClientFunc != nil`; `clientOk`
is the factory call succeeding; `patch1Ok`/`patch2Ok` are the outcomes of
the first and second explicit `Patch` calls on the path. -/
structure MvmEnv where
  factoryConfigured : Bool
  clientOk : Bool
  get : GetOutcome
  createOutcome : Option (String × MicroVMState)
  deleteOk : Bool
  patch1Ok : Bool
  patch2Ok : Bool
deriving DecidableEq

/-- Calls issued to the store / provisioner during a Unit reconcile, in
order.  `patchCall b` records a `Patch` whose payload has the finalizer
present iff `b`. -/
inductive MvmEvent where
  | getCall
  | patchCall (finalizerSet : Bool)
  | createCall
  | deleteCall
deriving DecidableEq

/-- Everything a Unit reconcile invocation produces: the updated object,
the controller result, the returned error, and the trace of calls. -/
structure MvmOutcome where
  mvm : Microvm
  result : CtrlResult
  error : Option RErr
  events : List MvmEvent
deriving DecidableEq

/-- `MicrovmReconciler.reconcileDelete`.  The service lookup failure path
logs and returns the zero result with `nil` error; a present remote vm is
marked not-ready, patched, deleted unless already deleting, and requeued;
an absent remote vm clears the finalizer. -/
def mvm_reconcileDelete (env : MvmEnv) (m0 : Microvm) : MvmOutcome :=
  if !(env.factoryConfigured && env.clientOk) then
    { mvm := m0, result := ⟨0⟩, error := none, events := [] }
  else
    match env.get with
    | GetOutcome.failure =>
        { mvm := m0, result := ⟨0⟩, error := some RErr.getFailed,
          events := [MvmEvent.getCall] }
    | GetOutcome.found _ state =>
        let m1 := mvmSetNotReady m0 Reason.microvmDeleting
        if !env.patch1Ok then
          { mvm := m1, result := ⟨0⟩, error := some RErr.patchFailed,
            events := [MvmEvent.getCall, MvmEvent.patchCall m1.finalizer] }
        else if state ≠ MicroVMState.deleting then
          if env.deleteOk then
            { mvm := m1, result := ⟨requeuePeriod⟩, error := none,
              events := [MvmEvent.getCall, MvmEvent.patchCall m1.finalizer,
                         MvmEvent.deleteCall] }
          else
            { mvm := mvmSetNotReady m1 Reason.microvmDeleteFailed,
              result := ⟨0⟩, error := some RErr.deleteFailed,
              events := [MvmEvent.getCall, MvmEvent.patchCall m1.finalizer,
                         MvmEvent.deleteCall] }
        else
          { mvm := m1, result := ⟨requeuePeriod⟩, error := none,
            events := [MvmEvent.getCall, MvmEvent.patchCall m1.finalizer] }
    | GetOutcome.notFound =>
        { mvm := { m0 with finalizer := false }, result := ⟨0⟩, error := none,
          events := [MvmEvent.getCall] }

/-- `MicrovmReconciler.parseMicroVMState`: translate the provisioner state
into the Unit's `VMState`, condition and result. -/
def parseMicroVMState (m : Microvm) (state : MicroVMState) :
    Microvm × CtrlResult × Option RErr :=
  match state with
  | MicroVMState.created =>
      (mvmSetReady { m with status := { m.status with vmState := some VMState.running } },
       ⟨0⟩, none)
  | MicroVMState.pending =>
      (mvmSetNotReady
         { m with status := { m.status with vmState := some VMState.pending } }
         Reason.microvmPending,
       ⟨requeuePeriod⟩, none)
  | MicroVMState.failed =>
      (mvmSetNotReady
         { m with status := { m.status with vmState := some VMState.failed } }
         Reason.microvmProvisionFailed,
       ⟨0⟩, some RErr.microvmFailed)
  | MicroVMState.deleting =>
      (m, ⟨requeuePeriod⟩, none)
  | MicroVMState.other _ =>
      (mvmSetNotReady
         { m with status := { m.status with vmState := some VMState.unknown } }
         Reason.microvmUnknownState,
       ⟨requeuePeriod⟩, some RErr.microvmUnknownState)

/-- `MicrovmScope.SetProviderID`: record `microvm://<endpoint>/<uid>`. -/
def mvmSetProviderID (m : Microvm) (uid : String) : Microvm :=
  { m with spec := { m.spec with
      providerID := some ("microvm://" ++ m.spec.host.endpoint ++ "/" ++ uid) } }

/-- Tail of `MicrovmReconciler.reconcileNormal` after the remote microvm is
in hand: save its uid, patch, and dispatch on its state. -/
def mvm_afterObtain (env : MvmEnv) (m1 : Microvm) (uid : String)
    (state : MicroVMState) (evs : List MvmEvent) : MvmOutcome :=
  let m2 := mvmSetProviderID m1 uid
  if !env.patch2Ok then
    { mvm := m2, result := ⟨0⟩, error := some RErr.patchFailed,
      events := evs ++ [MvmEvent.patchCall m2.finalizer] }
  else
    let out := parseMicroVMState m2 state
    { mvm := out.1, result := out.2.1, error := out.2.2,
      events := evs ++ [MvmEvent.patchCall m2.finalizer] }

/-- `MicrovmReconciler.reconcileNormal`: resolve the provisioner service,
look the remote vm up when a provider id is stored, add the finalizer and
patch, create the remote vm when absent, save the uid and translate the
state. -/
def mvm_reconcileNormal (env : MvmEnv) (m0 : Microvm) : MvmOutcome :=
  if !env.factoryConfigured then
    { mvm := m0, result := ⟨0⟩, error := some RErr.clientFactory, events := [] }
  else if !env.clientOk then
    { mvm := m0, result := ⟨0⟩, error := some RErr.clientCreate, events := [] }
  else
    let doGet := m0.spec.providerID.isSome
    let getEvs := if doGet then [MvmEvent.getCall] else []
    let lookup : Except Unit (Option (String × MicroVMState)) :=
      if doGet then
        match env.get with
        | GetOutcome.failure => Except.error ()
        | GetOutcome.found uid st => Except.ok (some (uid, st))
        | GetOutcome.notFound => Except.ok none
      else Except.ok none
    match lookup with
    | Except.error _ =>
        { mvm := m0, result := ⟨0⟩, error := some RErr.getFailed, events := getEvs }
    | Except.ok remote =>
        let m1 := { m0 with finalizer := true }
        if !env.patch1Ok then
          { mvm := m1, result := ⟨0⟩, error := some RErr.patchFailed,
            events := getEvs ++ [MvmEvent.patchCall true] }
        else
          match remote with
          | none =>
              match env.createOutcome with
              | none =>
                  { mvm := m1, result := ⟨0⟩, error := some RErr.createFailed,
                    events := getEvs ++ [MvmEvent.patchCall true, MvmEvent.createCall] }
              | some (uid, st) =>
                  mvm_afterObtain env m1 uid st
                    (getEvs ++ [MvmEvent.patchCall true, MvmEvent.createCall])
          | some (uid, st) =>
              mvm_afterObtain env m1 uid st (getEvs ++ [MvmEvent.patchCall true])

/-- `MicrovmReconciler.Reconcile` dispatch between the delete and the
normal path, after the object has been fetched. -/
def mvm_reconcile (env : MvmEnv) (m : Microvm) : MvmOutcome :=
  if m.deletionTimestamp then mvm_reconcileDelete env m
  else mvm_reconcileNormal env m

/-- `true` iff in the call trace every remote create call is strictly
preceded by a patch whose payload carried the finalizer. -/
def createAfterPersist : Bool → List MvmEvent → Bool
  | _, [] => true
  | persisted, MvmEvent.patchCall b :: rest => createAfterPersist (persisted || b) rest
  | persisted, MvmEvent.createCall :: rest => persisted && createAfterPersist persisted rest
  | persisted, _ :: rest => createAfterPersist persisted rest

/-- `spec` of a MicrovmReplicaSet: desired replica count
(`*Spec.Replicas`), the single target host, and the Unit template
(`Spec.Template.Spec`), kept as its own host field plus the opaque rest. -/
structure MicrovmRSSpecT where
  replicas : Nat
  host : Host
  templateHost : Host
  templatePayload : Nat
deriving DecidableEq

/-- `status` of a MicrovmReplicaSet: observed created and ready counts,
readiness and the last not-ready reason. -/
structure MicrovmRSStatusT where
  replicas : Nat
  readyReplicas : Nat
  ready : Bool
  readyReason : Option Reason
deriving DecidableEq

/-- A MicrovmReplicaSet object; `id` is its identity as referenced by the
owner references of its child Units. -/
structure MicrovmReplicaSet where
  id : Nat
  ns : String
  deletionTimestamp : Bool
  finalizer : Bool
  spec : MicrovmRSSpecT
  status : MicrovmRSStatusT
deriving DecidableEq

/-- `MicrovmReplicaSetScope.SetReady`. -/
def rsSetReady (rs : MicrovmReplicaSet) : MicrovmReplicaSet :=
  { rs with status := { rs.status with ready := true, readyReason := none } }

/-- `MicrovmReplicaSetScope.SetNotReady`. -/
def rsSetNotReady (rs : MicrovmReplicaSet) (r : Reason) : MicrovmReplicaSet :=
  { rs with status := { rs.status with ready := false, readyReason := some r } }

/-- Environment of one ReplicaSet reconcile: the owned-Unit list returned
by `getOwnedMicrovms` (`none` = list error), and outcomes of the `Create`
and the synchronous `Delete` store calls. -/
structure RSEnv where
  list : Option (List Microvm)
  createOk : Bool
  deleteOk : Bool
deriving DecidableEq

/-- What a ReplicaSet reconcile invocation produces: the updated object,
result, error, the number of `Create` calls issued and the Units a
`Delete` call was issued for. -/
structure RSOutcome where
  rs : MicrovmReplicaSet
  result : CtrlResult
  error : Option RErr
  createCalls : Nat
  deleteCalls : List Microvm
deriving DecidableEq

/-- `MicrovmReplicaSetReconciler.createMicrovm`: a new Unit in the
ReplicaSet's namespace with the controller owner reference set, the spec
copied from the template, and the host then overwritten with the
ReplicaSet's host. -/
def createMicrovm (rs : MicrovmReplicaSet) : Microvm :=
  let templateSpec : MicrovmSpecT :=
    { host := rs.spec.templateHost, providerID := none,
      payload := rs.spec.templatePayload }
  { ns := rs.ns, ownerRS := some rs.id, deletionTimestamp := false,
    finalizer := false,
    spec := { templateSpec with host := rs.spec.host },
    status := { ready := false, vmState := none, readyReason := none } }

/-- `MicrovmReplicaSetReconciler.reconcileDelete`: bail out clearing the
finalizer when the status created count is zero; otherwise mark not-ready,
zero the ready count, list the owned Units, fire a delete per Unit not
already terminating, record the listed count and requeue. -/
def rs_reconcileDelete (env : RSEnv) (rs0 : MicrovmReplicaSet) : RSOutcome :=
  if rs0.status.replicas = 0 then
    { rs := { rs0 with finalizer := false }, result := ⟨0⟩, error := none,
      createCalls := 0, deleteCalls := [] }
  else
    let rs1 := rsSetNotReady rs0 Reason.rsDeleting
    let rs2 := { rs1 with status := { rs1.status with readyReplicas := 0 } }
    match env.list with
    | none =>
        { rs := rs2, result := ⟨0⟩, error := some RErr.listFailed,
          createCalls := 0, deleteCalls := [] }
    | some mvmList =>
        let toDelete := mvmList.filter (fun m => !m.deletionTimestamp)
        let rs3 := { rs2 with status := { rs2.status with replicas := mvmList.length } }
        { rs := rs3, result := ⟨requeuePeriod⟩, error := none,
          createCalls := 0, deleteCalls := toDelete }

/-- `MicrovmReplicaSetReconciler.reconcileNormal`: refresh the created and
ready counts from the owned-Unit list, then one step of the priority
switch (ready, create one, delete one, wait), adding the finalizer and
requeueing in the branches that fall out of the switch. -/
def rs_reconcileNormal (env : RSEnv) (rs0 : MicrovmReplicaSet) : RSOutcome :=
  match env.list with
  | none =>
      { rs := rs0, result := ⟨0⟩, error := some RErr.listFailed,
        createCalls := 0, deleteCalls := [] }
  | some mvmList =>
      let rs1 := { rs0 with status := { rs0.status with
        replicas := mvmList.length,
        readyReplicas := (mvmList.filter (fun m => m.status.ready)).length } }
      if rs1.status.readyReplicas = rs1.spec.replicas then
        { rs := rsSetReady rs1, result := ⟨0⟩, error := none,
          createCalls := 0, deleteCalls := [] }
      else if rs1.status.replicas < rs1.spec.replicas then
        if env.createOk then
          { rs := { rsSetNotReady rs1 Reason.rsIncomplete with finalizer := true },
            result := ⟨requeuePeriod⟩, error := none,
            createCalls := 1, deleteCalls := [] }
        else
          { rs := rsSetNotReady rs1 Reason.rsProvisionFailed, result := ⟨0⟩,
            error := some RErr.createFailed, createCalls := 1, deleteCalls := [] }
      else if rs1.spec.replicas < rs1.status.replicas then
        let rs2 := rsSetNotReady rs1 Reason.rsUpdating
        match mvmList.head? with
        | none =>
            -- unreachable: the branch guard gives mvmList.length > replicas ≥ 0
            { rs := rs2, result := ⟨0⟩, error := none,
              createCalls := 0, deleteCalls := [] }
        | some mvm =>
            if mvm.deletionTimestamp then
              { rs := rs2, result := ⟨0⟩, error := none,
                createCalls := 0, deleteCalls := [] }
            else if env.deleteOk then
              { rs := { rs2 with finalizer := true }, result := ⟨requeuePeriod⟩,
                error := none, createCalls := 0, deleteCalls := [mvm] }
            else
              { rs := rsSetNotReady rs2 Reason.rsDeleteFailed, result := ⟨0⟩,
                error := some RErr.deleteFailed, createCalls := 0,
                deleteCalls := [mvm] }
      else
        { rs := { rsSetNotReady rs1 Reason.rsIncomplete with finalizer := true },
          result := ⟨requeuePeriod⟩, error := none,
          createCalls := 0, deleteCalls := [] }

/-- Total number of `Create` calls issued by a sequence of normal-path
ReplicaSet reconciles, threading the object state through the calls. -/
def rs_runNormal : List RSEnv → MicrovmReplicaSet → Nat
  | [], _ => 0
  | e :: es, rs =>
      (rs_reconcileNormal e rs).createCalls + rs_runNormal es (rs_reconcileNormal e rs).rs

/-- Key lookup in a `HostMap` (`map[string]struct{}` keyed by endpoint),
modelled as the list of its keys. -/
def hostMapHas (m : List String) (e : String) : Bool :=
  match m with
  | [] => false
  | x :: rest => if x = e then true else hostMapHas rest e

/-- `spec` of a MicrovmDeployment: the target host set, the per-host
replica count (`*Spec.Replicas`) and the shared Unit template. -/
structure MicrovmDepSpecT where
  hosts : List Host
  replicas : Nat
  templateHost : Host
  templatePayload : Nat
deriving DecidableEq

/-- `status` of a MicrovmDeployment. -/
structure MicrovmDepStatusT where
  replicas : Nat
  readyReplicas : Nat
  ready : Bool
  readyReason : Option Reason
deriving DecidableEq

/-- A MicrovmDeployment object. -/
structure MicrovmDeployment where
  id : Nat
  ns : String
  deletionTimestamp : Bool
  finalizer : Bool
  spec : MicrovmDepSpecT
  status : MicrovmDepStatusT
deriving DecidableEq

/-- `MicrovmDeploymentScope.SetReady`. -/
def depSetReady (d : MicrovmDeployment) : MicrovmDeployment :=
  { d with status := { d.status with ready := true, readyReason := none } }

/-- `MicrovmDeploymentScope.SetNotReady`. -/
def depSetNotReady (d : MicrovmDeployment) (r : Reason) : MicrovmDeployment :=
  { d with status := { d.status with ready := false, readyReason := some r } }

/-- `MicrovmDeploymentScope.RequiredSets`: one ReplicaSet per spec host. -/
def depRequiredSets (d : MicrovmDeployment) : Nat :=
  d.spec.hosts.length

/-- `MicrovmDeploymentScope.DesiredTotalReplicas`: per-host count times the
number of required sets. -/
def depDesiredTotalReplicas (d : MicrovmDeployment) : Nat :=
  d.spec.replicas * depRequiredSets d

/-- `MicrovmDeploymentScope.DetermineHost`: the first spec host whose
endpoint is not a key of the map of hosts that already have a ReplicaSet;
`none` models the "could not find free host" error. -/
def determineHost (hosts : List Host) (setHosts : List String) : Option Host :=
  match hosts with
  | [] => none
  | h :: rest =>
      if hostMapHas setHosts h.endpoint then determineHost rest setHosts
      else some h

/-- `MicrovmDeploymentScope.ExpiredHosts`: the keys of the map after every
spec host's endpoint has been deleted from it. -/
def expiredHosts (d : MicrovmDeployment) (setHosts : List String) : List String :=
  setHosts.filter (fun e => !hostMapHas (d.spec.hosts.map Host.endpoint) e)

/-- The `activeHosts` map built by `reconcileNormal`: the endpoints of the
owned ReplicaSets, first occurrence kept (Go map key insertion). -/
def activeHostsOf (rsList : List MicrovmReplicaSet) : List String :=
  rsList.foldl
    (fun acc rs =>
      if hostMapHas acc rs.spec.host.endpoint then acc
      else acc ++ [rs.spec.host.endpoint])
    []

/-- Environment of one Deployment reconcile: the owned-ReplicaSet list
(`none` = list error) and the outcomes of the store `Create`/`Delete`
calls. -/
structure DepEnv where
  list : Option (List MicrovmReplicaSet)
  createOk : Bool
  deleteOk : Bool
deriving DecidableEq

/-- What a Deployment reconcile invocation produces. -/
structure DepOutcome where
  dep : MicrovmDeployment
  result : CtrlResult
  error : Option RErr
  createCalls : Nat
  deleteCalls : List MicrovmReplicaSet
deriving DecidableEq

/-- How the expired-host delete loop of
`MicrovmDeploymentReconciler.reconcileNormal` ends: it ran through the
whole list (falling out of the switch), returned early on an
already-terminating set, or returned a delete error.  Each carries the
sets a `Delete` call was issued for. -/
inductive DepLoopRes where
  | done (calls : List MicrovmReplicaSet)
  | stopped (calls : List MicrovmReplicaSet)
  | failed (calls : List MicrovmReplicaSet)
deriving DecidableEq

/-- The expired-host delete loop: skip sets whose host is not expired,
return early on a set already terminating, issue deletes otherwise,
aborting on the first failure. -/
def depDeleteLoop (deleteOk : Bool) (dead : List String) :
    List MicrovmReplicaSet → DepLoopRes
  | [] => DepLoopRes.done []
  | rs :: rest =>
      if !hostMapHas dead rs.spec.host.endpoint then
        depDeleteLoop deleteOk dead rest
      else if rs.deletionTimestamp then
        DepLoopRes.stopped []
      else if deleteOk then
        match depDeleteLoop deleteOk dead rest with
        | DepLoopRes.done calls => DepLoopRes.done (rs :: calls)
        | DepLoopRes.stopped calls => DepLoopRes.stopped (rs :: calls)
        | DepLoopRes.failed calls => DepLoopRes.failed (rs :: calls)
      else DepLoopRes.failed [rs]

/-- `MicrovmDeploymentReconciler.createReplicaSet`: a new ReplicaSet for
the given host with the Deployment's per-host count and template, owner
reference set. -/
def createReplicaSet (d : MicrovmDeployment) (h : Host) : MicrovmReplicaSet :=
  { id := 0, ns := d.ns, deletionTimestamp := false, finalizer := false,
    spec := { replicas := d.spec.replicas, host := h,
              templateHost := d.spec.templateHost,
              templatePayload := d.spec.templatePayload },
    status := { replicas := 0, readyReplicas := 0, ready := false,
                readyReason := none } }

/-- `MicrovmDeploymentReconciler.reconcileNormal`: refresh the summed
created/ready counts and the host bookkeeping, then one step of the
priority switch (ready, delete expired sets, create one set, wait). -/
def dep_reconcileNormal (env : DepEnv) (d0 : MicrovmDeployment) : DepOutcome :=
  match env.list with
  | none =>
      { dep := d0, result := ⟨0⟩, error := some RErr.listFailed,
        createCalls := 0, deleteCalls := [] }
  | some rsList =>
      let created := (rsList.map (fun rs => rs.status.replicas)).sum
      let ready := (rsList.map (fun rs => rs.status.readyReplicas)).sum
      let active := activeHostsOf rsList
      let d1 := { d0 with status := { d0.status with
        replicas := created, readyReplicas := ready } }
      let dead := expiredHosts d0 active
      if d1.status.readyReplicas = depDesiredTotalReplicas d1 then
        { dep := depSetReady d1, result := ⟨0⟩, error := none,
          createCalls := 0, deleteCalls := [] }
      else if dead ≠ [] then
        let d2 := depSetNotReady d1 Reason.depUpdating
        match depDeleteLoop env.deleteOk dead rsList with
        | DepLoopRes.done calls =>
            { dep := { d2 with finalizer := true }, result := ⟨requeuePeriod⟩,
              error := none, createCalls := 0, deleteCalls := calls }
        | DepLoopRes.stopped calls =>
            { dep := d2, result := ⟨0⟩, error := none,
              createCalls := 0, deleteCalls := calls }
        | DepLoopRes.failed calls =>
            { dep := depSetNotReady d2 Reason.depUpdateFailed, result := ⟨0⟩,
              error := some RErr.deleteFailed, createCalls := 0,
              deleteCalls := calls }
      else if active.length < depRequiredSets d1 then
        match determineHost d1.spec.hosts active with
        | none =>
            { dep := depSetNotReady d1 Reason.depProvisionFailed, result := ⟨0⟩,
              error := some RErr.noFreeHost, createCalls := 0, deleteCalls := [] }
        | some _ =>
            if env.createOk then
              { dep := { depSetNotReady d1 Reason.depIncomplete with finalizer := true },
                result := ⟨requeuePeriod⟩, error := none,
                createCalls := 1, deleteCalls := [] }
            else
              { dep := depSetNotReady d1 Reason.depProvisionFailed, result := ⟨0⟩,
                error := some RErr.createFailed, createCalls := 1, deleteCalls := [] }
      else
        { dep := { depSetNotReady d1 Reason.depIncomplete with finalizer := true },
          result := ⟨requeuePeriod⟩, error := none,
          createCalls := 0, deleteCalls := [] }

/-! ### Helper lemmas and concrete fixtures -/

theorem hostMapHas_iff (m : List String) (e : String) :
    hostMapHas m e = true ↔ e ∈ m := by
  induction m with
  | nil => simp [hostMapHas]
  | cons x rest ih =>
      by_cases hx : x = e
      · subst hx
        simp [hostMapHas]
      · rw [hostMapHas, if_neg hx, ih, List.mem_cons]
        constructor
        · exact Or.inr
        · rintro (h | h)
          · exact absurd h.symm hx
          · exact h

theorem parseMicroVMState_finalizer (m : Microvm) (st : MicroVMState) :
    (parseMicroVMState m st).1.finalizer = m.finalizer := by
  cases st <;> rfl

/-- Sample hosts. -/
def hostA : Host := ⟨"hostA"⟩

def hostB : Host := ⟨"hostB"⟩

/-- A sample Unit owned by ReplicaSet 1, not ready, not terminating. -/
def unitA : Microvm :=
  { ns := "default", ownerRS := some 1, deletionTimestamp := false,
    finalizer := false,
    spec := { host := hostA, providerID := none, payload := 0 },
    status := { ready := false, vmState := none, readyReason := none } }

/-- A sample Unit that is ready but already terminating. -/
def unitTerm : Microvm :=
  { ns := "default", ownerRS := some 1, deletionTimestamp := true,
    finalizer := true,
    spec := { host := hostA, providerID := none, payload := 0 },
    status := { ready := true, vmState := none, readyReason := none } }

/-- A sample Unit carrying a provider id, with the finalizer present and a
deletion timestamp set. -/
def unitDel : Microvm :=
  { ns := "default", ownerRS := some 1, deletionTimestamp := true,
    finalizer := true,
    spec := { host := hostA, providerID := some "microvm://hostA/u1", payload := 0 },
    status := { ready := true, vmState := some VMState.running, readyReason := none } }

/-! ### C1 -/

/-- Claim C1: on the Unit delete path the local finalizer is removed only
when the remote lookup reports the unit absent; whenever the provisioner
still reports the unit present, the finalizer at exit equals the finalizer
at entry, and removal of a present finalizer implies the lookup answered
not-found. -/
theorem mvm_delete_no_premature_finalizer_release (env : MvmEnv) (m : Microvm) :
    (∀ uid st, env.get = GetOutcome.found uid st →
       (mvm_reconcileDelete env m).mvm.finalizer = m.finalizer)
    ∧ (m.finalizer = true → (mvm_reconcileDelete env m).mvm.finalizer = false →
       env.get = GetOutcome.notFound) := by
  constructor
  · intro uid st hget
    simp only [mvm_reconcileDelete, hget, mvmSetNotReady]
    split <;> [rfl; skip]
    split <;> [rfl; skip]
    split <;> [skip; rfl]
    split <;> rfl
  · intro hfin hrem
    cases hget : env.get with
    | notFound => rfl
    | failure =>
        simp only [mvm_reconcileDelete, hget] at hrem
        split at hrem <;> simp_all
    | found uid st =>
        simp only [mvm_reconcileDelete, hget, mvmSetNotReady] at hrem
        split at hrem <;> try simp_all
        split at hrem <;> try simp_all
        split at hrem <;> try simp_all
        split at hrem <;> simp_all

/-- Witness for C1: a concrete delete reconcile against a provisioner that
still reports the unit as present (in created state) keeps the finalizer. -/
theorem mvm_delete_no_premature_finalizer_release_witness :
    (mvm_reconcileDelete
       { factoryConfigured := true, clientOk := true,
         get := GetOutcome.found "u1" MicroVMState.created,
         createOutcome := none, deleteOk := true,
         patch1Ok := true, patch2Ok := true }
       unitDel).mvm.finalizer = unitDel.finalizer :=
  (mvm_delete_no_premature_finalizer_release
      { factoryConfigured := true, clientOk := true,
        get := GetOutcome.found "u1" MicroVMState.created,
        createOutcome := none, deleteOk := true,
        patch1Ok := true, patch2Ok := true }
      unitDel).1 "u1" MicroVMState.created rfl

/-! ### C2 -/

/-- A terminating ReplicaSet whose status created count is stale (zero)
while a child Unit still exists. -/
def rsStale : MicrovmReplicaSet :=
  { id := 1, ns := "default", deletionTimestamp := true, finalizer := true,
    spec := { replicas := 1, host := hostA, templateHost := hostA,
              templatePayload := 0 },
    status := { replicas := 0, readyReplicas := 0, ready := false,
                readyReason := none } }

/-- Delete-path environment in which listing the owned Units would return
one remaining Unit. -/
def rsStaleEnv : RSEnv := { list := some [unitA], createOk := true, deleteOk := true }

/-- Counterexample to C2: with the status created count stale at zero, the
delete path clears the finalizer and finishes converged without error even
though the owned-Unit list is non-empty — the bail-out checks the status
count, not the list. -/
theorem rs_delete_counterexample :
    rsStaleEnv.list = some [unitA]
    ∧ (rs_reconcileDelete rsStaleEnv rsStale).rs.finalizer = false
    ∧ (rs_reconcileDelete rsStaleEnv rsStale).result = ⟨0⟩
    ∧ (rs_reconcileDelete rsStaleEnv rsStale).error = none
    ∧ (rs_reconcileDelete rsStaleEnv rsStale).deleteCalls = [] :=
  ⟨rfl, rfl, rfl, rfl, rfl⟩

/-- Claim C2 as amended: the ReplicaSet delete path clears the finalizer
and finishes (converged, no error) exactly when the status created-replica
count is zero; when it is non-zero the owned Units are listed instead and
the finalizer is left unchanged. -/
theorem rs_delete_finalizer_iff_status_zero (env : RSEnv) (rs : MicrovmReplicaSet) :
    (((rs_reconcileDelete env rs).result.requeueAfter = 0
        ∧ (rs_reconcileDelete env rs).error = none)
      ↔ rs.status.replicas = 0)
    ∧ (rs.status.replicas = 0 → (rs_reconcileDelete env rs).rs.finalizer = false)
    ∧ (rs.status.replicas ≠ 0 →
        (rs_reconcileDelete env rs).rs.finalizer = rs.finalizer) := by
  by_cases h0 : rs.status.replicas = 0
  · simp [rs_reconcileDelete, h0]
  · cases hl : env.list with
    | none => simp [rs_reconcileDelete, h0, hl, rsSetNotReady]
    | some l => simp [rs_reconcileDelete, h0, hl, rsSetNotReady, requeuePeriod]

/-- Witness for the amended C2: a concrete delete reconcile with one
remaining created replica in status does not clear the finalizer, and a
concrete one with zero does. -/
theorem rs_delete_finalizer_iff_status_zero_witness :
    (rs_reconcileDelete rsStaleEnv
        { rsStale with status := { rsStale.status with replicas := 1 } }).rs.finalizer
      = true
    ∧ (rs_reconcileDelete rsStaleEnv rsStale).rs.finalizer = false :=
  ⟨(rs_delete_finalizer_iff_status_zero rsStaleEnv
      { rsStale with status := { rsStale.status with replicas := 1 } }).2.2
        (by decide),
   (rs_delete_finalizer_iff_status_zero rsStaleEnv rsStale).2.1 rfl⟩

/-! ### C3 -/

theorem rs_createCalls_le_one (env : RSEnv) (rs : MicrovmReplicaSet) :
    (rs_reconcileNormal env rs).createCalls ≤ 1 := by
  cases hl : env.list with
  | none => simp [rs_reconcileNormal, hl]
  | some l =>
      simp only [rs_reconcileNormal, hl]
      split
      · exact Nat.zero_le 1
      · split
        · split <;> exact Nat.le_refl 1
        · split
          · split
            · exact Nat.zero_le 1
            · split
              · exact Nat.zero_le 1
              · split <;> exact Nat.zero_le 1
          · exact Nat.zero_le 1

theorem rs_runNormal_le_length (envs : List RSEnv) (rs : MicrovmReplicaSet) :
    rs_runNormal envs rs ≤ envs.length := by
  induction envs generalizing rs with
  | nil => simp [rs_runNormal]
  | cons e es ih =>
      simp only [rs_runNormal, List.length_cons]
      have h1 := rs_createCalls_le_one e rs
      have h2 := ih (rs_reconcileNormal e rs).rs
      omega

/-- Claim C3: a single ReplicaSet normal-path reconcile issues at most one
Unit create call, and any sequence of n reconciles issues at most n create
calls in total, so creating N missing Units takes at least N invocations. -/
theorem rs_one_step_creation :
    (∀ (env : RSEnv) (rs : MicrovmReplicaSet),
       (rs_reconcileNormal env rs).createCalls ≤ 1)
    ∧ (∀ (envs : List RSEnv) (rs : MicrovmReplicaSet),
       rs_runNormal envs rs ≤ envs.length) :=
  ⟨rs_createCalls_le_one, rs_runNormal_le_length⟩

/-! ### C4 -/

/-- A Unit on the normal path holding a provider id. -/
def unitLive : Microvm :=
  { ns := "default", ownerRS := some 1, deletionTimestamp := false,
    finalizer := true,
    spec := { host := hostA, providerID := some "microvm://hostA/u1", payload := 0 },
    status := { ready := true, vmState := some VMState.running, readyReason := none } }

/-- An environment whose remote lookup reports the unit in Failed state. -/
def envFailed : MvmEnv :=
  { factoryConfigured := true, clientOk := true,
    get := GetOutcome.found "u1" MicroVMState.failed,
    createOutcome := none, deleteOk := true, patch1Ok := true, patch2Ok := true }

/-- Counterexample to C4: when the provisioner reports Failed, the
reconcile returns the failure error with the zero result — the requeue
interval is not set (unlike the unknown-state branch), so the result is
not "requeue after the fixed interval". -/
theorem mvm_failed_counterexample :
    (mvm_reconcileNormal envFailed unitLive).error = some RErr.microvmFailed
    ∧ (mvm_reconcileNormal envFailed unitLive).result.requeueAfter = 0
    ∧ requeuePeriod ≠ 0 :=
  ⟨rfl, rfl, by decide⟩

/-- Claim C4 as amended: for every Unit normal-path reconcile in which the
provisioner reports Failed — whether through the lookup of the stored
provider id or through the create response — and whose store patches
succeed, the VMState is set to Failed, the Unit is marked not ready with
the provision-failed reason, and the reconcile reports the failure error
with an empty result (no requeue interval; the retry is driven by the
returned error, unlike the unknown-state branch which sets the interval). -/
theorem mvm_failed_state (env : MvmEnv) (m : Microvm)
    (hf : env.factoryConfigured = true) (hc : env.clientOk = true)
    (hp1 : env.patch1Ok = true) (hp2 : env.patch2Ok = true)
    (hrep :
      (m.spec.providerID.isSome = true
        ∧ ∃ uid, env.get = GetOutcome.found uid MicroVMState.failed)
      ∨ ((m.spec.providerID = none ∨ env.get = GetOutcome.notFound)
        ∧ ∃ uid, env.createOutcome = some (uid, MicroVMState.failed))) :
    (mvm_reconcileNormal env m).mvm.status.vmState = some VMState.failed
    ∧ (mvm_reconcileNormal env m).mvm.status.ready = false
    ∧ (mvm_reconcileNormal env m).mvm.status.readyReason
        = some Reason.microvmProvisionFailed
    ∧ (mvm_reconcileNormal env m).error = some RErr.microvmFailed
    ∧ (mvm_reconcileNormal env m).result.requeueAfter = 0 := by
  rcases hrep with ⟨hps, uid, hget⟩ | ⟨hor, uid, hco⟩
  · cases hpid : m.spec.providerID with
    | none => simp [hpid] at hps
    | some pid =>
        simp [mvm_reconcileNormal, hf, hc, hp1, hp2, hpid, hget,
          mvm_afterObtain, parseMicroVMState, mvmSetNotReady, mvmSetProviderID]
  · cases hpid : m.spec.providerID with
    | none =>
        simp [mvm_reconcileNormal, hf, hc, hp1, hp2, hpid, hco,
          mvm_afterObtain, parseMicroVMState, mvmSetNotReady, mvmSetProviderID]
    | some pid =>
        rcases hor with hpn | hget
        · simp [hpid] at hpn
        · simp [mvm_reconcileNormal, hf, hc, hp1, hp2, hpid, hget, hco,
            mvm_afterObtain, parseMicroVMState, mvmSetNotReady, mvmSetProviderID]

/-- Environment whose remote lookup finds nothing and whose create
response reports the unit in Failed state. -/
def envCreateFailed : MvmEnv :=
  { factoryConfigured := true, clientOk := true, get := GetOutcome.notFound,
    createOutcome := some ("u1", MicroVMState.failed),
    deleteOk := true, patch1Ok := true, patch2Ok := true }

/-- Witness for the amended C4, exercising the create-path report: the
Unit has no stored provider id and the create response reports Failed. -/
theorem mvm_failed_state_witness :
    (mvm_reconcileNormal envCreateFailed unitA).mvm.status.vmState
      = some VMState.failed
    ∧ (mvm_reconcileNormal envCreateFailed unitA).mvm.status.ready = false
    ∧ (mvm_reconcileNormal envCreateFailed unitA).mvm.status.readyReason
        = some Reason.microvmProvisionFailed
    ∧ (mvm_reconcileNormal envCreateFailed unitA).error = some RErr.microvmFailed
    ∧ (mvm_reconcileNormal envCreateFailed unitA).result.requeueAfter = 0 :=
  mvm_failed_state envCreateFailed unitA rfl rfl rfl rfl
    (Or.inr ⟨Or.inl rfl, "u1", rfl⟩)

/-! ### C6 -/

/-- An environment with no provisioner client factory configured. -/
def envNoFactory : MvmEnv :=
  { factoryConfigured := false, clientOk := true,
    get := GetOutcome.found "u1" MicroVMState.created,
    createOutcome := none, deleteOk := true, patch1Ok := true, patch2Ok := true }

/-- Counterexample to C6: with no factory configured, a delete-path Unit
reconcile returns no error at all (the factory error is only logged), so
the claim that every such reconcile "returns an error immediately" fails. -/
theorem mvm_no_factory_counterexample :
    envNoFactory.factoryConfigured = false
    ∧ unitDel.deletionTimestamp = true
    ∧ (mvm_reconcile envNoFactory unitDel).error = none
    ∧ (mvm_reconcile envNoFactory unitDel).result = ⟨0⟩ :=
  ⟨rfl, rfl, rfl, rfl⟩

/-- Claim C6 as amended: with no provisioner client factory configured, a
Unit reconcile performs no mutation of the Unit and issues no remote or
store call; the normal path returns the factory error immediately while
the delete path only logs it and returns converged with no error. -/
theorem mvm_no_factory (env : MvmEnv) (m : Microvm)
    (hf : env.factoryConfigured = false) :
    (mvm_reconcile env m).mvm = m
    ∧ (mvm_reconcile env m).events = []
    ∧ (mvm_reconcile env m).error
        = (if m.deletionTimestamp then none else some RErr.clientFactory)
    ∧ (mvm_reconcile env m).result.requeueAfter = 0 := by
  cases hd : m.deletionTimestamp with
  | true => simp [mvm_reconcile, mvm_reconcileDelete, hd, hf]
  | false => simp [mvm_reconcile, mvm_reconcileNormal, hd, hf]

/-- Witness for the amended C6 at a concrete Unit and environment. -/
theorem mvm_no_factory_witness :
    (mvm_reconcile envNoFactory unitLive).mvm = unitLive
    ∧ (mvm_reconcile envNoFactory unitLive).events = []
    ∧ (mvm_reconcile envNoFactory unitLive).error
        = (if unitLive.deletionTimestamp then none else some RErr.clientFactory)
    ∧ (mvm_reconcile envNoFactory unitLive).result.requeueAfter = 0 :=
  mvm_no_factory envNoFactory unitLive rfl

/-! ### C7 -/

/-- A ReplicaSet scaled down to zero desired replicas, without the
finalizer. -/
def rsScaleDown : MicrovmReplicaSet :=
  { id := 1, ns := "default", deletionTimestamp := false, finalizer := false,
    spec := { replicas := 0, host := hostA, templateHost := hostA,
              templatePayload := 0 },
    status := { replicas := 1, readyReplicas := 1, ready := false,
                readyReason := none } }

/-- Normal-path environment whose owned-Unit list holds one ready Unit
that is already terminating. -/
def rsScaleDownEnv : RSEnv :=
  { list := some [unitTerm], createOk := true, deleteOk := true }

/-- Counterexample to C7: a non-converged normal-path reconcile (one ready
Unit against zero desired) that hits the scale-down branch on an
already-terminating first Unit returns the zero result with no error and
without ensuring the finalizer. -/
theorem rs_nonterminal_counterexample :
    (rs_reconcileNormal rsScaleDownEnv rsScaleDown).rs.status.readyReplicas = 1
    ∧ rsScaleDown.spec.replicas = 0
    ∧ (rs_reconcileNormal rsScaleDownEnv rsScaleDown).rs.finalizer = false
    ∧ (rs_reconcileNormal rsScaleDownEnv rsScaleDown).result.requeueAfter = 0
    ∧ (rs_reconcileNormal rsScaleDownEnv rsScaleDown).error = none :=
  ⟨rfl, rfl, rfl, rfl, rfl⟩

/-- Claim C7 as amended: a ReplicaSet normal-path reconcile that does not
conclude in the converged branch ensures the finalizer and requeues after
the fixed 30-unit interval, provided it returns no error and does not hit
the scale-down early return on an already-terminating first listed Unit. -/
theorem rs_nonterminal_finalizer_requeue (env : RSEnv) (rs : MicrovmReplicaSet)
    (l : List Microvm)
    (hl : env.list = some l)
    (hnc : (l.filter (fun m => m.status.ready)).length ≠ rs.spec.replicas)
    (hne : (rs_reconcileNormal env rs).error = none)
    (hsd : ¬ (rs.spec.replicas < l.length
              ∧ (l.head?.map Microvm.deletionTimestamp).getD false = true)) :
    (rs_reconcileNormal env rs).rs.finalizer = true
    ∧ (rs_reconcileNormal env rs).result.requeueAfter = requeuePeriod := by
  by_cases h2 : l.length < rs.spec.replicas
  · by_cases hcr : env.createOk
    · simp [rs_reconcileNormal, hl, hnc, h2, hcr]
    · simp [rs_reconcileNormal, hl, hnc, h2, hcr] at hne
  · by_cases h3 : rs.spec.replicas < l.length
    · cases l with
      | nil => simp at h3
      | cons m rest =>
          have h2' : ¬ rest.length + 1 < rs.spec.replicas := by simpa using h2
          have h3' : rs.spec.replicas < rest.length + 1 := by simpa using h3
          cases hmd : m.deletionTimestamp with
          | true => exact absurd ⟨h3, by simp [hmd]⟩ hsd
          | false =>
              by_cases hdel : env.deleteOk
              · simp [rs_reconcileNormal, hl, hnc, h2', h3', hmd, hdel]
              · simp [rs_reconcileNormal, hl, hnc, h2', h3', hmd, hdel] at hne
    · have h4 : l.length = rs.spec.replicas := by omega
      simp [rs_reconcileNormal, hl, hnc, h2, h3, h4]

/-- Witness for the amended C7: a concrete waiting-branch reconcile (one
created, one desired, none ready) adds the finalizer and requeues. -/
theorem rs_nonterminal_finalizer_requeue_witness :
    (rs_reconcileNormal { list := some [unitA], createOk := true, deleteOk := true }
        { rsStale with deletionTimestamp := false, finalizer := false }).rs.finalizer
      = true
    ∧ (rs_reconcileNormal { list := some [unitA], createOk := true, deleteOk := true }
        { rsStale with deletionTimestamp := false, finalizer := false }).result.requeueAfter
      = requeuePeriod :=
  rs_nonterminal_finalizer_requeue
    { list := some [unitA], createOk := true, deleteOk := true }
    { rsStale with deletionTimestamp := false, finalizer := false }
    [unitA] rfl (by decide) (by decide) (by decide)

/-! ### C5 -/

theorem depDeleteLoop_done (dead : List String) (l : List MicrovmReplicaSet)
    (hterm : ∀ rs ∈ l, hostMapHas dead rs.spec.host.endpoint = true →
        rs.deletionTimestamp = false) :
    depDeleteLoop true dead l
      = DepLoopRes.done
          (l.filter (fun rs => hostMapHas dead rs.spec.host.endpoint)) := by
  induction l with
  | nil => rfl
  | cons rs rest ih =>
      have hrest : ∀ r ∈ rest, hostMapHas dead r.spec.host.endpoint = true →
          r.deletionTimestamp = false :=
        fun r hr => hterm r (List.mem_cons_of_mem rs hr)
      cases hhas : hostMapHas dead rs.spec.host.endpoint with
      | false => simp [depDeleteLoop, hhas, ih hrest, List.filter_cons]
      | true =>
          have hrs : rs.deletionTimestamp = false :=
            hterm rs (List.mem_cons_self rs rest) hhas
          simp [depDeleteLoop, hhas, hrs, ih hrest, List.filter_cons]

/-- Sample deployment hosts. -/
def hostH1 : Host := ⟨"h1"⟩

def hostH2 : Host := ⟨"h2"⟩

/-- A fully ready owned ReplicaSet on host h1. -/
def rsReadyH1 : MicrovmReplicaSet :=
  { id := 10, ns := "default", deletionTimestamp := false, finalizer := true,
    spec := { replicas := 2, host := hostH1, templateHost := hostH1,
              templatePayload := 0 },
    status := { replicas := 2, readyReplicas := 2, ready := true,
                readyReason := none } }

/-- An owned ReplicaSet on host h2, which the Deployment spec no longer
lists. -/
def rsExpiredH2 : MicrovmReplicaSet :=
  { id := 11, ns := "default", deletionTimestamp := false, finalizer := true,
    spec := { replicas := 2, host := hostH2, templateHost := hostH2,
              templatePayload := 0 },
    status := { replicas := 0, readyReplicas := 0, ready := false,
                readyReason := none } }

/-- A Deployment whose spec host set is down to h1, desiring 2 per host. -/
def depC5 : MicrovmDeployment :=
  { id := 1, ns := "default", deletionTimestamp := false, finalizer := true,
    spec := { hosts := [hostH1], replicas := 2, templateHost := hostH1,
              templatePayload := 0 },
    status := { replicas := 2, readyReplicas := 2, ready := false,
                readyReason := none } }

/-- Environment listing both the ready set on h1 and the expired set on h2. -/
def depC5Env : DepEnv :=
  { list := some [rsReadyH1, rsExpiredH2], createOk := true, deleteOk := true }

/-- Counterexample to C5: host h2 is expired (it has an owned ReplicaSet
but is gone from the spec host set), yet because the total ready count
equals the desired total the reconcile takes the ready branch: it deletes
nothing and never sets the updating reason. -/
theorem dep_expired_host_counterexample :
    expiredHosts depC5 (activeHostsOf [rsReadyH1, rsExpiredH2]) = ["h2"]
    ∧ (dep_reconcileNormal depC5Env depC5).deleteCalls = []
    ∧ (dep_reconcileNormal depC5Env depC5).dep.status.ready = true
    ∧ (dep_reconcileNormal depC5Env depC5).dep.status.readyReason
        ≠ some Reason.depUpdating
    ∧ (dep_reconcileNormal depC5Env depC5).error = none
    ∧ (dep_reconcileNormal depC5Env depC5).result.requeueAfter = 0 :=
  ⟨rfl, rfl, rfl, by decide, rfl, rfl⟩

/-- Claim C5 as amended: when a spec host set no longer contains a host
holding an owned ReplicaSet, the next normal-path reconcile whose total
ready count differs from the desired total (with deletes succeeding and no
expired-host set already terminating) issues a delete for every ReplicaSet
on an expired host and sets the not-ready updating reason; when the total
ready count equals the desired total the reconcile instead marks the
Deployment ready and deletes nothing. -/
theorem dep_expired_host_delete (env : DepEnv) (d : MicrovmDeployment)
    (l : List MicrovmReplicaSet)
    (hl : env.list = some l) :
    ((l.map (fun rs => rs.status.readyReplicas)).sum ≠ depDesiredTotalReplicas d →
      expiredHosts d (activeHostsOf l) ≠ [] →
      env.deleteOk = true →
      (∀ rs ∈ l,
        hostMapHas (expiredHosts d (activeHostsOf l)) rs.spec.host.endpoint = true →
        rs.deletionTimestamp = false) →
      (dep_reconcileNormal env d).deleteCalls
        = l.filter (fun rs =>
            hostMapHas (expiredHosts d (activeHostsOf l)) rs.spec.host.endpoint)
      ∧ (dep_reconcileNormal env d).dep.status.readyReason = some Reason.depUpdating
      ∧ (dep_reconcileNormal env d).dep.status.ready = false
      ∧ (dep_reconcileNormal env d).result.requeueAfter = requeuePeriod
      ∧ (dep_reconcileNormal env d).error = none)
    ∧ ((l.map (fun rs => rs.status.readyReplicas)).sum = depDesiredTotalReplicas d →
      (dep_reconcileNormal env d).deleteCalls = []
      ∧ (dep_reconcileNormal env d).dep.status.ready = true
      ∧ (dep_reconcileNormal env d).result.requeueAfter = 0
      ∧ (dep_reconcileNormal env d).error = none) := by
  constructor
  · intro hready hdead hdel hterm
    simp only [depDesiredTotalReplicas, depRequiredSets] at hready
    simp [dep_reconcileNormal, hl, hready, hdead, hdel,
      depDeleteLoop_done _ _ hterm, depSetNotReady,
      depDesiredTotalReplicas, depRequiredSets]
  · intro hready
    simp only [depDesiredTotalReplicas, depRequiredSets] at hready
    simp [dep_reconcileNormal, hl, hready, depSetReady,
      depDesiredTotalReplicas, depRequiredSets]

/-- Witness for the amended C5: with only the expired set owned (zero
ready), the reconcile deletes it and sets the updating reason; at the
ready-satisfied fixture, the reconcile marks ready instead. -/
theorem dep_expired_host_delete_witness :
    (dep_reconcileNormal { list := some [rsExpiredH2], createOk := true, deleteOk := true }
        depC5).deleteCalls = [rsExpiredH2]
    ∧ (dep_reconcileNormal { list := some [rsExpiredH2], createOk := true, deleteOk := true }
        depC5).dep.status.readyReason = some Reason.depUpdating
    ∧ (dep_reconcileNormal depC5Env depC5).dep.status.ready = true :=
  ⟨((dep_expired_host_delete
      { list := some [rsExpiredH2], createOk := true, deleteOk := true }
      depC5 [rsExpiredH2] rfl).1
        (by decide) (by decide) rfl (by decide)).1.trans (by decide),
   ((dep_expired_host_delete
      { list := some [rsExpiredH2], createOk := true, deleteOk := true }
      depC5 [rsExpiredH2] rfl).1
        (by decide) (by decide) rfl (by decide)).2.1,
   ((dep_expired_host_delete depC5Env depC5 [rsReadyH1, rsExpiredH2] rfl).2
        (by decide)).2.1⟩

/-! ### C8 -/

/-- Claim C8: `DetermineHost` returns the first host in spec order whose
endpoint is not a key of the host map, and reports the no-free-host error
(`none`) exactly when every spec host's endpoint is in the map. -/
theorem determineHost_first_free (hosts : List Host) (m : List String) :
    (determineHost hosts m = none ↔ ∀ h ∈ hosts, h.endpoint ∈ m)
    ∧ (∀ h, determineHost hosts m = some h →
        h.endpoint ∉ m
        ∧ ∃ pre suf, hosts = pre ++ h :: suf
            ∧ ∀ h' ∈ pre, h'.endpoint ∈ m) := by
  induction hosts with
  | nil => simp [determineHost]
  | cons x rest ih =>
      cases hx : hostMapHas m x.endpoint with
      | true =>
          have hxm : x.endpoint ∈ m := (hostMapHas_iff m x.endpoint).1 hx
          have hstep : determineHost (x :: rest) m = determineHost rest m := by
            simp [determineHost, hx]
          constructor
          · rw [hstep, ih.1]
            constructor
            · intro hall h hh
              rcases List.mem_cons.mp hh with h1 | h1
              · rw [h1]
                exact hxm
              · exact hall h h1
            · intro hall h hh
              exact hall h (List.mem_cons_of_mem x hh)
          · intro h hsome
            rw [hstep] at hsome
            obtain ⟨hnot, pre, suf, heq, hpre⟩ := ih.2 h hsome
            refine ⟨hnot, x :: pre, suf, by rw [heq, List.cons_append], ?_⟩
            intro h' hh'
            rcases List.mem_cons.mp hh' with h1 | h1
            · rw [h1]
              exact hxm
            · exact hpre h' h1
      | false =>
          have hxm : x.endpoint ∉ m := by
            intro hmem
            rw [(hostMapHas_iff m x.endpoint).2 hmem] at hx
            cases hx
          have hstep : determineHost (x :: rest) m = some x := by
            simp [determineHost, hx]
          constructor
          · rw [hstep]
            constructor
            · intro habs
              cases habs
            · intro hall
              exact absurd (hall x (List.mem_cons_self x rest)) hxm
          · intro h hsome
            rw [hstep] at hsome
            have hex : x = h := by
              injection hsome
            rw [← hex]
            exact ⟨hxm, [], rest, rfl, by simp⟩

/-- Witness for C8: with both spec hosts' endpoints claimed, the lookup
reports no free host; with only the first claimed, the second is picked. -/
theorem determineHost_first_free_witness :
    determineHost [hostH1, hostH2] ["h1", "h2"] = none
    ∧ hostH2.endpoint ∉ ["h1"] :=
  ⟨(determineHost_first_free [hostH1, hostH2] ["h1", "h2"]).1.mpr (by decide),
   ((determineHost_first_free [hostH1, hostH2] ["h1"]).2 hostH2 (by decide)).1⟩

/-! ### C9 -/

/-- Claim C9: a Unit created by the ReplicaSet controller carries the
ReplicaSet's host (the template host is overwritten, whatever it was), the
owner reference to the ReplicaSet, the template payload and the
ReplicaSet's namespace. -/
theorem createMicrovm_shares_host (rs : MicrovmReplicaSet) :
    (createMicrovm rs).spec.host = rs.spec.host
    ∧ (createMicrovm rs).ownerRS = some rs.id
    ∧ (createMicrovm rs).spec.payload = rs.spec.templatePayload
    ∧ (createMicrovm rs).ns = rs.ns
    ∧ ∀ h : Host,
        (createMicrovm
          { rs with spec := { rs.spec with templateHost := h } }).spec.host
          = rs.spec.host :=
  ⟨rfl, rfl, rfl, rfl, fun _ => rfl⟩

/-! ### C10 -/

/-- Claim C10: on every Unit normal-path reconcile, every remote create
call in the trace is strictly preceded by a store patch whose payload
carries the finalizer, and a create call implies that patch succeeded and
the object keeps the finalizer at exit — no remote unit is created for a
Unit lacking the persisted finalizer. -/
theorem mvm_create_after_finalizer_persist (env : MvmEnv) (m : Microvm) :
    createAfterPersist false (mvm_reconcileNormal env m).events = true
    ∧ (MvmEvent.createCall ∈ (mvm_reconcileNormal env m).events →
        env.patch1Ok = true ∧ (mvm_reconcileNormal env m).mvm.finalizer = true) := by
  rcases env with ⟨fc, ck, get, co, dok, p1, p2⟩
  cases fc
  · simp [mvm_reconcileNormal, createAfterPersist]
  · cases ck
    · simp [mvm_reconcileNormal, createAfterPersist]
    · cases hpid : m.spec.providerID with
      | none =>
          cases p1
          · simp [mvm_reconcileNormal, hpid, createAfterPersist]
          · cases co with
            | none => simp [mvm_reconcileNormal, hpid, createAfterPersist]
            | some pr =>
                obtain ⟨uid, st⟩ := pr
                cases p2 <;>
                  simp [mvm_reconcileNormal, hpid, mvm_afterObtain,
                    createAfterPersist, mvmSetProviderID,
                    parseMicroVMState_finalizer]
      | some pid =>
          cases get with
          | failure =>
              simp [mvm_reconcileNormal, hpid, createAfterPersist]
          | notFound =>
              cases p1
              · simp [mvm_reconcileNormal, hpid, createAfterPersist]
              · cases co with
                | none => simp [mvm_reconcileNormal, hpid, createAfterPersist]
                | some pr =>
                    obtain ⟨uid, st⟩ := pr
                    cases p2 <;>
                      simp [mvm_reconcileNormal, hpid, mvm_afterObtain,
                        createAfterPersist, mvmSetProviderID,
                        parseMicroVMState_finalizer]
          | found uid st =>
              cases p1
              · simp [mvm_reconcileNormal, hpid, createAfterPersist]
              · cases p2 <;>
                  simp [mvm_reconcileNormal, hpid, mvm_afterObtain,
                    createAfterPersist, mvmSetProviderID,
                    parseMicroVMState_finalizer]

/-- Witness for C10: a concrete reconcile that creates the remote unit
(no provider id stored, create succeeding) did persist the finalizer
first. -/
theorem mvm_create_after_finalizer_persist_witness :
    ({ factoryConfigured := true, clientOk := true, get := GetOutcome.notFound,
       createOutcome := some ("u9", MicroVMState.pending), deleteOk := true,
       patch1Ok := true, patch2Ok := true } : MvmEnv).patch1Ok = true
    ∧ (mvm_reconcileNormal
        { factoryConfigured := true, clientOk := true, get := GetOutcome.notFound,
          createOutcome := some ("u9", MicroVMState.pending), deleteOk := true,
          patch1Ok := true, patch2Ok := true }
        unitA).mvm.finalizer = true :=
  (mvm_create_after_finalizer_persist
      { factoryConfigured := true, clientOk := true, get := GetOutcome.notFound,
        createOutcome := some ("u9", MicroVMState.pending), deleteOk := true,
        patch1Ok := true, patch2Ok := true }
      unitA).2 (by decide)


